import Mathlib

/-!
Shallow embedding of `cart/cart.py` (class `Cart`) from the
Django-Ecommerce repository, together with proofs that the repository's
specification holds of it.

The cart mapping (a Python `dict` from product-id strings to integer
quantities) is modelled as an association list in insertion order; in
every state reachable through the cart's operations its keys are
pairwise distinct, exactly as for a Python dict.  Python `int(quantity)`
applied to an integer is the identity, so quantities are modelled as
`Int`.
-/

/-- A Python value appearing as a product identifier: an integer or a
string.  Python `str()` on it yields its string form. -/
inductive PyVal where
  | int (n : Int)
  | str (s : String)
deriving DecidableEq

/-- Python `str()` on a `PyVal`. -/
def pyStr : PyVal → String
  | .int n => toString n
  | .str s => s

/-- The argument accepted by the cart operations: either an object
exposing an `id` attribute (`hasattr(product, "id")` holds, e.g. a
`Product` model instance) or a bare identifier. -/
inductive ProductArg where
  | obj (id : PyVal)
  | plain (v : PyVal)
deriving DecidableEq

/-- The session cart mapping `Dict[str, int]`. -/
abbrev CartMap := List (String × Int)

/-- Python `m.get(k)` / `m[k]` lookup on the cart dict. -/
def cartGet : CartMap → String → Option Int
  | [], _ => none
  | (k', v) :: t, k => if k' = k then some v else cartGet t k

/-- Python `k in m` on the cart dict. -/
def cartContains : CartMap → String → Bool
  | [], _ => false
  | (k', _) :: t, k => if k' = k then true else cartContains t k

/-- Python `m[k] = v` on the cart dict: replaces the value in place when
the key is present, appends a new entry otherwise. -/
def cartSet : CartMap → String → Int → CartMap
  | [], k, v => [(k, v)]
  | (k', v') :: t, k, v => if k' = k then (k, v) :: t else (k', v') :: cartSet t k v

/-- Python `del m[k]` on the cart dict (the source only calls it on a
present key). -/
def cartErase : CartMap → String → CartMap
  | [], _ => []
  | (k', v') :: t, k => if k' = k then cartErase t k else (k', v') :: cartErase t k

/-- Modelled from the spec: a catalog product, which the catalog contract
describes as "objects exposing `id`, `price`, `sale_price`, `is_sale`"
(`store.models.Product` itself is not part of this fragment).  Prices are
modelled as integers. -/
structure Product where
  id : PyVal
  price : Int
  sale_price : Int
  is_sale : Bool
deriving DecidableEq

/-- The state a `Cart` instance reads and writes: `self.cart` (the
session's `"cart"` entry, which `self.cart` aliases), the session's
`modified` flag, and — modelled from the spec's profile contract, since
`store.models.Profile` is not part of this fragment — whether
`request.user.is_authenticated` and the user's profile row's `old_cart`
field (`none` when the user has no profile row). -/
structure Cart where
  cart : CartMap
  session_modified : Bool
  user_authenticated : Bool
  profile_old_cart : Option CartMap
deriving DecidableEq

/-- `Cart.__init__`: reads the session's `"cart"` entry; if absent,
initializes it to `{}` and writes it back.  Returns the session entry
after construction together with the mapping bound to `self.cart`. -/
def Cart.init (session_cart : Option CartMap) : Option CartMap × CartMap :=
  match session_cart with
  | none => (some [], [])
  | some c => (some c, c)

/-- `Cart._save`: sets `self.session.modified = True` and, when the user
is authenticated, runs
`Profile.objects.filter(user_id=...).update(old_cart=self.cart)`, which
overwrites the profile row's `old_cart` field when the row exists. -/
def Cart.save (c : Cart) : Cart :=
  { c with
    session_modified := true
    profile_old_cart :=
      if c.user_authenticated then c.profile_old_cart.map (fun _ => c.cart)
      else c.profile_old_cart }

/-- `Cart._get_product_id`:
`str(product.id if hasattr(product, "id") else product)`. -/
def Cart.get_product_id : ProductArg → String
  | .obj i => pyStr i
  | .plain v => pyStr v

/-- `Cart.add(product, quantity=1)`: inserts the normalized id with
`int(quantity)` only when not already present, then `_save`s. -/
def Cart.add (c : Cart) (product : ProductArg) (quantity : Int) : Cart :=
  let product_id := Cart.get_product_id product
  Cart.save
    (if cartContains c.cart product_id then c
     else { c with cart := cartSet c.cart product_id quantity })

/-- `Cart.update(product, quantity)`: unconditionally sets the normalized
id to `int(quantity)`, `_save`s, and returns `self.cart`. -/
def Cart.update (c : Cart) (product : ProductArg) (quantity : Int) :
    Cart × CartMap :=
  let product_id := Cart.get_product_id product
  let c' := Cart.save { c with cart := cartSet c.cart product_id quantity }
  (c', c'.cart)

/-- `Cart.delete(product)`: removes the normalized id when present, then
`_save`s. -/
def Cart.delete (c : Cart) (product : ProductArg) : Cart :=
  let product_id := Cart.get_product_id product
  Cart.save
    (if cartContains c.cart product_id
     then { c with cart := cartErase c.cart product_id }
     else c)

/-- `Cart.__len__`: `len(self.cart)`. -/
def Cart.length (c : Cart) : Nat := c.cart.length

/-- `Cart.get_products`: `Product.objects.filter(id__in=self.cart.keys())`.
Modelled from the spec's catalog contract: "queries the external catalog
for all products whose id is in the cart's key set; order is
catalog-defined". -/
def Cart.get_products (catalog : List Product) (c : Cart) : List Product :=
  catalog.filter (fun p => cartContains c.cart (pyStr p.id))

/-- `Cart.get_quantities`: returns `self.cart`. -/
def Cart.get_quantities (c : Cart) : CartMap := c.cart

/-- `Cart.get_total_price`: iterates over `get_products()`, looks each
quantity up with `self.cart.get(str(product.id), 0)`, selects
`sale_price` when `is_sale` else `price`, and accumulates
`total += price * quantity` starting from `0`. -/
def Cart.get_total_price (catalog : List Product) (c : Cart) : Int :=
  (Cart.get_products catalog c).foldl
    (fun total product =>
      let quantity := (cartGet c.cart (pyStr product.id)).getD 0
      let price :=
        if product.is_sale then product.sale_price else product.price
      total + price * quantity)
    0

/-- The cart dict's keys are pairwise distinct, as for any Python dict;
this holds in every state reachable through the cart's operations. -/
def KeysNodup (m : CartMap) : Prop := (m.map Prod.fst).Nodup

/-- All quantities stored in the mapping are non-negative. -/
def NonnegCart (m : CartMap) : Prop := ∀ e ∈ m, 0 ≤ e.2

instance (m : CartMap) : Decidable (NonnegCart m) :=
  inferInstanceAs (Decidable (∀ e ∈ m, 0 ≤ e.2))

instance (m : CartMap) : Decidable (KeysNodup m) :=
  inferInstanceAs (Decidable (m.map Prod.fst).Nodup)

/-- The summand of the total as the spec words it: "quantity *
(sale_price if is_sale else price)", quantity looked up by the string
form of the product's id and defaulting to 0 when missing. -/
def cartTerm (m : CartMap) (pr : Product) : Int :=
  (cartGet m (pyStr pr.id)).getD 0 *
    (if pr.is_sale then pr.sale_price else pr.price)

/-- The summand exactly as the code computes it (`price * quantity`). -/
def codeCartTerm (m : CartMap) (pr : Product) : Int :=
  (if pr.is_sale then pr.sale_price else pr.price) *
    (cartGet m (pyStr pr.id)).getD 0

/-! ### Dictionary lemmas -/

lemma cartGet_cartSet_self (m : CartMap) (k : String) (v : Int) :
    cartGet (cartSet m k v) k = some v := by
  induction m with
  | nil => simp [cartSet, cartGet]
  | cons a t ih =>
    obtain ⟨k', v'⟩ := a
    by_cases h : k' = k <;> simp [cartSet, cartGet, h, ih]


lemma cartGet_cartSet_ne (m : CartMap) (k k' : String) (v : Int)
    (h : k' ≠ k) : cartGet (cartSet m k v) k' = cartGet m k' := by
  induction m with
  | nil => simp [cartSet, cartGet, Ne.symm h]
  | cons a t ih =>
    obtain ⟨ka, va⟩ := a
    by_cases hk : ka = k
    · subst hk
      simp [cartSet, cartGet, Ne.symm h]
    · by_cases hk' : ka = k' <;> simp [cartSet, cartGet, hk, hk', h, ih]

lemma cartGet_cartErase (m : CartMap) (k k' : String) :
    cartGet (cartErase m k) k' = if k' = k then none else cartGet m k' := by
  induction m with
  | nil => simp [cartErase, cartGet]
  | cons a t ih =>
    obtain ⟨ka, va⟩ := a
    by_cases hk : ka = k
    · subst hk
      by_cases hk' : k' = ka
      · subst hk'
        simp [cartErase, ih]
      · simp [cartErase, cartGet, ih, hk', Ne.symm hk']
    · by_cases hk' : ka = k'
      · subst hk'
        simp [cartErase, cartGet, hk]
      · simp [cartErase, cartGet, hk, hk', ih]

lemma cartContains_eq_isSome (m : CartMap) (k : String) :
    cartContains m k = (cartGet m k).isSome := by
  induction m with
  | nil => simp [cartContains, cartGet]
  | cons a t ih =>
    obtain ⟨ka, va⟩ := a
    by_cases hk : ka = k <;> simp [cartContains, cartGet, hk, ih]

lemma cartContains_cartSet (m : CartMap) (k k' : String) (v : Int) :
    cartContains (cartSet m k v) k' =
      if k' = k then true else cartContains m k' := by
  by_cases h : k' = k
  · subst h
    simp [cartContains_eq_isSome, cartGet_cartSet_self]
  · simp [cartContains_eq_isSome, cartGet_cartSet_ne m k k' v h, h]

lemma cartContains_cartErase (m : CartMap) (k k' : String) :
    cartContains (cartErase m k) k' =
      if k' = k then false else cartContains m k' := by
  by_cases h : k' = k
  · simp [cartContains_eq_isSome, cartGet_cartErase, h]
  · simp [cartContains_eq_isSome, cartGet_cartErase, h]

lemma cartGet_eq_none_of_not_contains (m : CartMap) (k : String)
    (h : cartContains m k = false) : cartGet m k = none := by
  have hs := cartContains_eq_isSome m k
  rw [h] at hs
  exact Option.not_isSome_iff_eq_none.mp (by simp [← hs])

lemma cartErase_of_not_contains (m : CartMap) (k : String)
    (h : cartContains m k = false) : cartErase m k = m := by
  induction m with
  | nil => simp [cartErase]
  | cons a t ih =>
    obtain ⟨ka, va⟩ := a
    by_cases hk : ka = k
    · simp [cartContains, hk] at h
    · simp [cartContains, hk] at h
      simp [cartErase, hk, ih h]

lemma mem_keys_of_cartContains (m : CartMap) (k : String)
    (h : cartContains m k = true) : k ∈ m.map Prod.fst := by
  induction m with
  | nil => simp [cartContains] at h
  | cons a t ih =>
    obtain ⟨ka, va⟩ := a
    by_cases hk : ka = k
    · simp [hk]
    · simp [cartContains, hk] at h
      simp [ih h]

lemma not_mem_keys_of_not_contains (m : CartMap) (k : String)
    (h : cartContains m k = false) : k ∉ m.map Prod.fst := by
  induction m with
  | nil => simp
  | cons a t ih =>
    obtain ⟨ka, va⟩ := a
    by_cases hk : ka = k
    · simp [cartContains, hk] at h
    · simp [cartContains, hk] at h
      have hk' : k ≠ ka := fun hh => hk hh.symm
      simp [hk', ih h]

lemma cartErase_sublist (m : CartMap) (k : String) :
    List.Sublist (cartErase m k) m := by
  induction m with
  | nil => simp [cartErase]
  | cons a t ih =>
    obtain ⟨ka, va⟩ := a
    by_cases hk : ka = k
    · simpa [cartErase, hk] using List.sublist_cons_of_sublist _ ih
    · simpa [cartErase, hk] using ih.cons₂ (ka, va)

lemma keys_cartSet (m : CartMap) (k : String) (v : Int) :
    (cartSet m k v).map Prod.fst =
      if cartContains m k then m.map Prod.fst
      else m.map Prod.fst ++ [k] := by
  induction m with
  | nil => simp [cartSet, cartContains]
  | cons a t ih =>
    obtain ⟨ka, va⟩ := a
    by_cases hk : ka = k
    · simp [cartSet, cartContains, hk]
    · by_cases hc : cartContains t k <;>
        simp [cartSet, cartContains, hk, hc, ih]

lemma keysNodup_cartSet (m : CartMap) (k : String) (v : Int)
    (h : KeysNodup m) : KeysNodup (cartSet m k v) := by
  unfold KeysNodup at h ⊢
  by_cases hc : cartContains m k
  · rw [keys_cartSet, if_pos hc]
    exact h
  · rw [keys_cartSet, if_neg hc, List.nodup_append]
    refine ⟨h, List.nodup_singleton k, ?_⟩
    intro x hx hx'
    simp at hx'
    subst hx'
    exact not_mem_keys_of_not_contains m x (by simpa using hc) hx

lemma keysNodup_cartErase (m : CartMap) (k : String)
    (h : KeysNodup m) : KeysNodup (cartErase m k) :=
  List.Nodup.sublist ((cartErase_sublist m k).map Prod.fst) h

lemma nonneg_cartSet (k : String) (v : Int) (hv : 0 ≤ v) :
    ∀ m : CartMap, NonnegCart m → NonnegCart (cartSet m k v) := by
  intro m
  induction m with
  | nil =>
    intro _ e he
    simp [cartSet] at he
    simp [he, hv]
  | cons a t ih =>
    obtain ⟨ka, va⟩ := a
    intro hm e he
    by_cases hk : ka = k
    · simp [cartSet, hk] at he
      rcases he with he | he
      · simp [he, hv]
      · exact hm e (List.mem_cons_of_mem _ he)
    · simp only [cartSet, hk, if_false, List.mem_cons] at he
      rcases he with he | he
      · exact he ▸ hm (ka, va) (by simp)
      · exact ih (fun x hx => hm x (List.mem_cons_of_mem _ hx)) e he

lemma nonneg_cartErase (m : CartMap) (k : String) (hm : NonnegCart m) :
    NonnegCart (cartErase m k) :=
  fun e he => hm e ((cartErase_sublist m k).subset he)

lemma foldl_add_eq_sum {α : Type} (f : α → Int) (l : List α) (a : Int) :
    l.foldl (fun t x => t + f x) a = a + (l.map f).sum := by
  induction l generalizing a with
  | nil => simp
  | cons x t ih => simp [ih, add_assoc]

lemma get_total_price_eq_sum (catalog : List Product) (c : Cart) :
    Cart.get_total_price catalog c =
      ((Cart.get_products catalog c).map (codeCartTerm c.cart)).sum := by
  show (Cart.get_products catalog c).foldl
      (fun total p => total + codeCartTerm c.cart p) 0 = _
  rw [foldl_add_eq_sum]
  simp

lemma Cart.save_cart (c : Cart) : (Cart.save c).cart = c.cart := rfl

lemma Cart.save_modified (c : Cart) :
    (Cart.save c).session_modified = true := rfl

lemma sum_codeCartTerm_congr (catalog : List Product) (m m' : CartMap)
    (hco : ∀ pr ∈ catalog,
      cartContains m' (pyStr pr.id) = cartContains m (pyStr pr.id))
    (hget : ∀ pr ∈ catalog,
      cartGet m' (pyStr pr.id) = cartGet m (pyStr pr.id)) :
    ((catalog.filter (fun pr => cartContains m' (pyStr pr.id))).map
        (codeCartTerm m')).sum =
      ((catalog.filter (fun pr => cartContains m (pyStr pr.id))).map
        (codeCartTerm m)).sum := by
  induction catalog with
  | nil => simp
  | cons pr rest ih =>
    have h1 := hco pr (by simp)
    have h2 := hget pr (by simp)
    have hterm : codeCartTerm m' pr = codeCartTerm m pr := by
      unfold codeCartTerm
      rw [h2]
    have ihr := ih (fun x hx => hco x (by simp [hx]))
      (fun x hx => hget x (by simp [hx]))
    by_cases hc : cartContains m (pyStr pr.id) = true
    · simp [List.filter_cons, h1, hc, hterm, ihr]
    · have hcf : cartContains m (pyStr pr.id) = false := by simpa using hc
      simp [List.filter_cons, h1, hcf, hterm, ihr]

lemma sum_codeCartTerm_erase_zero (catalog : List Product) (m : CartMap)
    (p : String) (h : cartGet m p = some 0) :
    ((catalog.filter (fun pr => cartContains (cartErase m p) (pyStr pr.id))).map
        (codeCartTerm (cartErase m p))).sum =
      ((catalog.filter (fun pr => cartContains m (pyStr pr.id))).map
        (codeCartTerm m)).sum := by
  induction catalog with
  | nil => simp
  | cons pr rest ih =>
    by_cases hp : pyStr pr.id = p
    · have hc : cartContains m (pyStr pr.id) = true := by
        rw [hp, cartContains_eq_isSome, h]
        rfl
      have hc' : cartContains (cartErase m p) (pyStr pr.id) = false := by
        rw [hp, cartContains_cartErase]
        simp
      have hterm : codeCartTerm m pr = 0 := by
        unfold codeCartTerm
        rw [hp, h]
        simp
      simp [List.filter_cons, hc, hc', hterm, ih]
    · have hc' : cartContains (cartErase m p) (pyStr pr.id) =
          cartContains m (pyStr pr.id) := by
        rw [cartContains_cartErase, if_neg hp]
      have hterm : codeCartTerm (cartErase m p) pr = codeCartTerm m pr := by
        unfold codeCartTerm
        rw [cartGet_cartErase, if_neg hp]
      by_cases hc : cartContains m (pyStr pr.id) = true
      · simp [List.filter_cons, hc, hc', hterm, ih]
      · have hcf : cartContains m (pyStr pr.id) = false := by simpa using hc
        simp [List.filter_cons, hcf, hc', hterm, ih]

lemma get_total_price_congr (catalog : List Product) (c c' : Cart)
    (hco : ∀ pr ∈ catalog,
      cartContains c'.cart (pyStr pr.id) = cartContains c.cart (pyStr pr.id))
    (hget : ∀ pr ∈ catalog,
      cartGet c'.cart (pyStr pr.id) = cartGet c.cart (pyStr pr.id)) :
    Cart.get_total_price catalog c' = Cart.get_total_price catalog c := by
  rw [get_total_price_eq_sum, get_total_price_eq_sum]
  unfold Cart.get_products
  exact sum_codeCartTerm_congr catalog c.cart c'.cart hco hget

lemma get_total_price_erase_zero (catalog : List Product) (c : Cart)
    (p : String) (h : cartGet c.cart p = some 0) :
    Cart.get_total_price catalog
        ⟨cartErase c.cart p, c.session_modified, c.user_authenticated,
          c.profile_old_cart⟩ =
      Cart.get_total_price catalog c := by
  rw [get_total_price_eq_sum, get_total_price_eq_sum]
  unfold Cart.get_products
  exact sum_codeCartTerm_erase_zero catalog c.cart p h

lemma Cart.add_cart (c : Cart) (product : ProductArg) (quantity : Int) :
    (Cart.add c product quantity).cart =
      if cartContains c.cart (Cart.get_product_id product) then c.cart
      else cartSet c.cart (Cart.get_product_id product) quantity := by
  unfold Cart.add
  rw [Cart.save_cart]
  by_cases hc : cartContains c.cart (Cart.get_product_id product) = true
  · simp [hc]
  · simp [hc]

lemma Cart.update_cart (c : Cart) (product : ProductArg) (quantity : Int) :
    (Cart.update c product quantity).1.cart =
      cartSet c.cart (Cart.get_product_id product) quantity := rfl

lemma Cart.delete_cart (c : Cart) (product : ProductArg) :
    (Cart.delete c product).cart =
      if cartContains c.cart (Cart.get_product_id product)
      then cartErase c.cart (Cart.get_product_id product)
      else c.cart := by
  unfold Cart.delete
  rw [Cart.save_cart]
  by_cases hc : cartContains c.cart (Cart.get_product_id product) = true
  · simp [hc]
  · simp [hc]

/-! ### The claims -/

/-- Claim C1: for every cart state and product with normalized id `p` and
quantity `q`, `add(product, q)` inserts `p` with quantity `int(q)` when
`p` is not yet a key of the mapping, and is a no-op on the whole mapping
(no increment, no overwrite) when `p` is already present. -/
theorem claim_C1 (c : Cart) (product : ProductArg) (quantity : Int) :
    (∀ k, cartGet (Cart.add c product quantity).cart k =
        if k = Cart.get_product_id product ∧
            cartContains c.cart (Cart.get_product_id product) = false
        then some quantity else cartGet c.cart k)
    ∧ (cartContains c.cart (Cart.get_product_id product) = true →
        (Cart.add c product quantity).cart = c.cart) := by
  constructor
  · intro k
    rw [Cart.add_cart]
    by_cases hc : cartContains c.cart (Cart.get_product_id product) = true
    · simp [hc]
    · have hcf : cartContains c.cart (Cart.get_product_id product) = false := by
        simpa using hc
      rw [if_neg hc]
      by_cases hk : k = Cart.get_product_id product
      · simp [hk, hcf, cartGet_cartSet_self]
      · rw [cartGet_cartSet_ne _ _ _ _ hk]
        simp [hk]
  · intro hc
    rw [Cart.add_cart, if_pos hc]

/-- Witness for C1 at a concrete input: id `"5"` is already present, so a
repeat `add` leaves the mapping unchanged. -/
theorem claim_C1_witness :
    cartContains (⟨[("5", 2)], false, false, none⟩ : Cart).cart
        (Cart.get_product_id (ProductArg.plain (PyVal.str "5"))) = true
    ∧ (Cart.add ⟨[("5", 2)], false, false, none⟩
        (ProductArg.plain (PyVal.str "5")) 9).cart =
      (⟨[("5", 2)], false, false, none⟩ : Cart).cart :=
  ⟨by decide,
    (claim_C1 ⟨[("5", 2)], false, false, none⟩
      (ProductArg.plain (PyVal.str "5")) 9).2 (by decide)⟩

/-- Claim C2: `update(product, q)` sets the normalized id's entry to
`int(q)`, overwriting any existing value, leaves every other key
unchanged, and returns the full updated mapping; `update(p, 5)` followed
by `update(p, 2)` leaves `p` with quantity 2. -/
theorem claim_C2 (c : Cart) (product : ProductArg) (quantity : Int) :
    (Cart.update c product quantity).2 = (Cart.update c product quantity).1.cart
    ∧ cartGet (Cart.update c product quantity).1.cart
        (Cart.get_product_id product) = some quantity
    ∧ (∀ k, k ≠ Cart.get_product_id product →
        cartGet (Cart.update c product quantity).1.cart k = cartGet c.cart k)
    ∧ cartGet (Cart.update (Cart.update c product 5).1 product 2).1.cart
        (Cart.get_product_id product) = some 2 := by
  refine ⟨rfl, ?_, ?_, ?_⟩
  · rw [Cart.update_cart]
    exact cartGet_cartSet_self _ _ _
  · intro k hk
    rw [Cart.update_cart]
    exact cartGet_cartSet_ne _ _ _ _ hk
  · rw [Cart.update_cart]
    exact cartGet_cartSet_self _ _ _

/-- Witness for C2 at a concrete input: updating id `"7"` leaves the
unrelated key `"x"` unchanged. -/
theorem claim_C2_witness :
    ("x" : String) ≠ Cart.get_product_id (ProductArg.plain (PyVal.str "7"))
    ∧ cartGet (Cart.update ⟨[("7", 1), ("x", 4)], false, false, none⟩
          (ProductArg.plain (PyVal.str "7")) 9).1.cart "x" =
      cartGet (⟨[("7", 1), ("x", 4)], false, false, none⟩ : Cart).cart "x" :=
  ⟨by decide,
    (claim_C2 ⟨[("7", 1), ("x", 4)], false, false, none⟩
      (ProductArg.plain (PyVal.str "7")) 9).2.2.1 "x" (by decide)⟩

/-- Claim C4: `delete(product)` removes the normalized id from the
mapping when present; when absent it is a total no-op (no error, mapping
unchanged). -/
theorem claim_C4 (c : Cart) (product : ProductArg) :
    (∀ k, cartGet (Cart.delete c product).cart k =
        if k = Cart.get_product_id product then none else cartGet c.cart k)
    ∧ (cartContains c.cart (Cart.get_product_id product) = false →
        (Cart.delete c product).cart = c.cart) := by
  constructor
  · intro k
    rw [Cart.delete_cart]
    by_cases hc : cartContains c.cart (Cart.get_product_id product) = true
    · rw [if_pos hc, cartGet_cartErase]
    · have hcf : cartContains c.cart (Cart.get_product_id product) = false := by
        simpa using hc
      rw [if_neg hc]
      by_cases hk : k = Cart.get_product_id product
      · rw [if_pos hk, hk]
        exact cartGet_eq_none_of_not_contains _ _ hcf
      · rw [if_neg hk]
  · intro hc
    rw [Cart.delete_cart, if_neg (by simp [hc])]

/-- Witness for C4 at a concrete input: deleting the absent id `"9"`
leaves the mapping unchanged. -/
theorem claim_C4_witness :
    cartContains (⟨[("5", 2)], false, false, none⟩ : Cart).cart
        (Cart.get_product_id (ProductArg.plain (PyVal.str "9"))) = false
    ∧ (Cart.delete ⟨[("5", 2)], false, false, none⟩
        (ProductArg.plain (PyVal.str "9"))).cart =
      (⟨[("5", 2)], false, false, none⟩ : Cart).cart :=
  ⟨by decide,
    (claim_C4 ⟨[("5", 2)], false, false, none⟩
      (ProductArg.plain (PyVal.str "9"))).2 (by decide)⟩

/-- Claim C8: construction binds `self.cart` to the session's `"cart"`
entry, initializing the entry to an empty mapping when absent; after
construction the session always holds a cart entry, the cart's mapping
is exactly that entry, and an existing entry is used unchanged. -/
theorem claim_C8 (session_cart : Option CartMap) :
    (Cart.init session_cart).1 = some (Cart.init session_cart).2
    ∧ (Cart.init session_cart).2 = session_cart.getD [] := by
  cases session_cart <;> simp [Cart.init]

/-- Claim C5: the cart's length equals the number of distinct product ids
in the mapping, independent of the stored quantities.  The hypothesis is
the Python-dict key-uniqueness invariant, which `keysNodup_cartSet` and
`keysNodup_cartErase` show every operation preserves from the empty
mapping produced at construction. -/
theorem claim_C5 (c : Cart) (h : KeysNodup c.cart) :
    Cart.length c = ((c.cart.map Prod.fst).dedup).length
    ∧ ∀ f : String × Int → Int,
        Cart.length ⟨c.cart.map (fun e => (e.1, f e)), c.session_modified,
          c.user_authenticated, c.profile_old_cart⟩ = Cart.length c := by
  constructor
  · unfold Cart.length
    rw [List.dedup_eq_self.mpr h]
    exact (List.length_map _ _).symm
  · intro f
    unfold Cart.length
    simp

/-- Witness for C5 at a concrete input: two ids each with quantity 10
give length 2 = number of distinct ids. -/
theorem claim_C5_witness :
    KeysNodup (⟨[("a", 10), ("b", 10)], false, false, none⟩ : Cart).cart
    ∧ Cart.length ⟨[("a", 10), ("b", 10)], false, false, none⟩ =
        (((⟨[("a", 10), ("b", 10)], false, false, none⟩ : Cart).cart.map
          Prod.fst).dedup).length :=
  ⟨by decide,
    (claim_C5 ⟨[("a", 10), ("b", 10)], false, false, none⟩ (by decide)).1⟩

lemma Cart.save_profile (x : Cart) (prev : CartMap)
    (hauth : x.user_authenticated = true)
    (hprev : x.profile_old_cart = some prev) :
    (Cart.save x).profile_old_cart = some (Cart.save x).cart := by
  unfold Cart.save
  simp [hauth, hprev]

/-- Claim C6: every mutating call (`add`, `update`, `delete`) ends with
the `_save` side effect: the session's modified flag is set, and for an
authenticated user with a profile row the row's `old_cart` is overwritten
with the current mapping (last-writer-wins for any previous value
`prev`), including on no-op adds and deletes. -/
theorem claim_C6 (c : Cart) (product : ProductArg) (quantity : Int) :
    ((Cart.add c product quantity).session_modified = true
      ∧ (Cart.update c product quantity).1.session_modified = true
      ∧ (Cart.delete c product).session_modified = true)
    ∧ (c.user_authenticated = true →
        ∀ prev, c.profile_old_cart = some prev →
          ((Cart.add c product quantity).profile_old_cart =
              some (Cart.add c product quantity).cart
            ∧ (Cart.update c product quantity).1.profile_old_cart =
              some (Cart.update c product quantity).1.cart
            ∧ (Cart.delete c product).profile_old_cart =
              some (Cart.delete c product).cart)) := by
  refine ⟨⟨rfl, rfl, rfl⟩, ?_⟩
  intro hauth prev hprev
  refine ⟨?_, ?_, ?_⟩
  · unfold Cart.add
    refine Cart.save_profile _ prev ?_ ?_
    · by_cases hc :
        cartContains c.cart (Cart.get_product_id product) = true <;>
        simp [hc, hauth]
    · by_cases hc :
        cartContains c.cart (Cart.get_product_id product) = true <;>
        simp [hc, hprev]
  · exact Cart.save_profile _ prev hauth hprev
  · unfold Cart.delete
    refine Cart.save_profile _ prev ?_ ?_
    · by_cases hc :
        cartContains c.cart (Cart.get_product_id product) = true <;>
        simp [hc, hauth]
    · by_cases hc :
        cartContains c.cart (Cart.get_product_id product) = true <;>
        simp [hc, hprev]

/-- Witness for C6 at a concrete input: a no-op repeat `add` by an
authenticated user with profile row `[("9", 9)]` still marks the session
modified (by `claim_C6`'s first component, proved for all inputs) and
still overwrites the profile with the current mapping. -/
theorem claim_C6_witness :
    (⟨[("1", 3)], false, true, some [("9", 9)]⟩ : Cart).user_authenticated = true
    ∧ (⟨[("1", 3)], false, true, some [("9", 9)]⟩ : Cart).profile_old_cart =
        some [("9", 9)]
    ∧ ((Cart.add ⟨[("1", 3)], false, true, some [("9", 9)]⟩
          (ProductArg.plain (PyVal.str "1")) 5).profile_old_cart =
        some (Cart.add ⟨[("1", 3)], false, true, some [("9", 9)]⟩
          (ProductArg.plain (PyVal.str "1")) 5).cart
      ∧ (Cart.update ⟨[("1", 3)], false, true, some [("9", 9)]⟩
          (ProductArg.plain (PyVal.str "1")) 5).1.profile_old_cart =
        some (Cart.update ⟨[("1", 3)], false, true, some [("9", 9)]⟩
          (ProductArg.plain (PyVal.str "1")) 5).1.cart
      ∧ (Cart.delete ⟨[("1", 3)], false, true, some [("9", 9)]⟩
          (ProductArg.plain (PyVal.str "1"))).profile_old_cart =
        some (Cart.delete ⟨[("1", 3)], false, true, some [("9", 9)]⟩
          (ProductArg.plain (PyVal.str "1"))).cart) :=
  ⟨rfl, rfl,
    (claim_C6 ⟨[("1", 3)], false, true, some [("9", 9)]⟩
      (ProductArg.plain (PyVal.str "1")) 5).2 rfl [("9", 9)] rfl⟩

/-- Claim C7 as stated is false on the code: quantities are coerced with
`int()` but never range-checked, so `update` on a fresh (reachable) empty
cart with quantity `-1` stores the negative quantity `-1`. -/
theorem claim_C7_counterexample :
    cartGet (Cart.update ⟨[], false, false, none⟩
        (ProductArg.plain (PyVal.str "1")) (-1)).1.cart "1" = some (-1)
    ∧ ¬(0 ≤ (-1 : Int)) := by
  decide

/-- Claim C7 amended: stored quantities are integers with no sign check;
provided the cart's quantities are non-negative and the quantity argument
passed is non-negative, `add` and `update` keep every stored quantity
non-negative, and `delete` preserves non-negativity unconditionally. -/
theorem claim_C7_amended (c : Cart) (product : ProductArg) (quantity : Int)
    (hm : NonnegCart c.cart) (hq : 0 ≤ quantity) :
    NonnegCart (Cart.add c product quantity).cart
    ∧ NonnegCart (Cart.update c product quantity).1.cart
    ∧ NonnegCart (Cart.delete c product).cart := by
  refine ⟨?_, ?_, ?_⟩
  · rw [Cart.add_cart]
    by_cases hc : cartContains c.cart (Cart.get_product_id product) = true
    · simpa [hc] using hm
    · rw [if_neg hc]
      exact nonneg_cartSet _ _ hq c.cart hm
  · rw [Cart.update_cart]
    exact nonneg_cartSet _ _ hq c.cart hm
  · rw [Cart.delete_cart]
    by_cases hc : cartContains c.cart (Cart.get_product_id product) = true
    · rw [if_pos hc]
      exact nonneg_cartErase _ _ hm
    · simpa [hc] using hm

/-- Witness for the amended C7 at a concrete input. -/
theorem claim_C7_amended_witness :
    NonnegCart (⟨[("1", 2)], false, false, none⟩ : Cart).cart
    ∧ (0 : Int) ≤ 3
    ∧ (NonnegCart (Cart.add ⟨[("1", 2)], false, false, none⟩
          (ProductArg.plain (PyVal.str "4")) 3).cart
      ∧ NonnegCart (Cart.update ⟨[("1", 2)], false, false, none⟩
          (ProductArg.plain (PyVal.str "4")) 3).1.cart
      ∧ NonnegCart (Cart.delete ⟨[("1", 2)], false, false, none⟩
          (ProductArg.plain (PyVal.str "4"))).cart) :=
  ⟨by decide, by decide,
    claim_C7_amended ⟨[("1", 2)], false, false, none⟩
      (ProductArg.plain (PyVal.str "4")) 3 (by decide) (by decide)⟩

/-- Claim C9: product-argument normalization is uniform across `add`,
`update` and `delete`: calling with an object exposing `id` equals
calling with `str(x.id)`, calling with a bare identifier equals calling
with its string form, and `add(x)` followed by `delete(str(x.id))`
removes the entry added. -/
theorem claim_C9 (c : Cart) (i v : PyVal) (quantity : Int) :
    Cart.add c (ProductArg.obj i) quantity =
        Cart.add c (ProductArg.plain (PyVal.str (pyStr i))) quantity
    ∧ Cart.update c (ProductArg.obj i) quantity =
        Cart.update c (ProductArg.plain (PyVal.str (pyStr i))) quantity
    ∧ Cart.delete c (ProductArg.obj i) =
        Cart.delete c (ProductArg.plain (PyVal.str (pyStr i)))
    ∧ Cart.add c (ProductArg.plain v) quantity =
        Cart.add c (ProductArg.plain (PyVal.str (pyStr v))) quantity
    ∧ Cart.update c (ProductArg.plain v) quantity =
        Cart.update c (ProductArg.plain (PyVal.str (pyStr v))) quantity
    ∧ Cart.delete c (ProductArg.plain v) =
        Cart.delete c (ProductArg.plain (PyVal.str (pyStr v)))
    ∧ cartGet (Cart.delete (Cart.add c (ProductArg.obj i) quantity)
          (ProductArg.plain (PyVal.str (pyStr i)))).cart (pyStr i) = none := by
  refine ⟨rfl, rfl, rfl, rfl, rfl, rfl, ?_⟩
  have hc : cartContains (Cart.add c (ProductArg.obj i) quantity).cart
      (pyStr i) = true := by
    rw [Cart.add_cart]
    by_cases hcc : cartContains c.cart
        (Cart.get_product_id (ProductArg.obj i)) = true
    · rw [if_pos hcc]
      exact hcc
    · rw [if_neg hcc, cartContains_cartSet]
      simp [Cart.get_product_id]
  rw [Cart.delete_cart]
  rw [show Cart.get_product_id (ProductArg.plain (PyVal.str (pyStr i))) =
      pyStr i from rfl]
  rw [if_pos hc, cartGet_cartErase, if_pos rfl]

/-- Claim C3: `get_total_price()` equals the sum, over the products
returned by `get_products()`, of
`quantity * (sale_price if is_sale else price)` with the quantity looked
up by the string form of the product's id (default 0); a cart id with no
matching catalog product contributes 0 (adding it changes nothing); and
the spec's worked example totals 65. -/
theorem claim_C3 (catalog : List Product) (c : Cart) :
    Cart.get_total_price catalog c =
      ((Cart.get_products catalog c).map (cartTerm c.cart)).sum
    ∧ (∀ k q, (∀ pr ∈ catalog, pyStr pr.id ≠ k) →
        Cart.get_total_price catalog
            ⟨cartSet c.cart k q, c.session_modified, c.user_authenticated,
              c.profile_old_cart⟩ =
          Cart.get_total_price catalog c)
    ∧ Cart.get_total_price
        [⟨PyVal.str "p1", 10, 0, false⟩, ⟨PyVal.str "p2", 20, 15, true⟩]
        ⟨[("p1", 2), ("p2", 3), ("p3", 1)], false, false, none⟩ = 65 := by
  refine ⟨?_, ?_, by decide⟩
  · rw [get_total_price_eq_sum]
    congr 1
    apply List.map_congr_left
    intro pr _
    unfold cartTerm codeCartTerm
    exact (mul_comm _ _).symm
  · intro k q hk
    apply get_total_price_congr
    · intro pr hpr
      show cartContains (cartSet c.cart k q) (pyStr pr.id) =
        cartContains c.cart (pyStr pr.id)
      rw [cartContains_cartSet, if_neg (hk pr hpr)]
    · intro pr hpr
      show cartGet (cartSet c.cart k q) (pyStr pr.id) =
        cartGet c.cart (pyStr pr.id)
      exact cartGet_cartSet_ne _ _ _ _ (hk pr hpr)

/-- Witness for C3 at a concrete input: inserting key `"zz"`, which
matches no catalog product, leaves the total unchanged. -/
theorem claim_C3_witness :
    (∀ pr ∈ ([⟨PyVal.str "a", 10, 0, false⟩] : List Product),
      pyStr pr.id ≠ "zz")
    ∧ Cart.get_total_price [⟨PyVal.str "a", 10, 0, false⟩]
          ⟨cartSet (⟨[("a", 1)], false, false, none⟩ : Cart).cart "zz" 4,
            (⟨[("a", 1)], false, false, none⟩ : Cart).session_modified,
            (⟨[("a", 1)], false, false, none⟩ : Cart).user_authenticated,
            (⟨[("a", 1)], false, false, none⟩ : Cart).profile_old_cart⟩ =
        Cart.get_total_price [⟨PyVal.str "a", 10, 0, false⟩]
          ⟨[("a", 1)], false, false, none⟩ :=
  ⟨by decide,
    (claim_C3 [⟨PyVal.str "a", 10, 0, false⟩]
      ⟨[("a", 1)], false, false, none⟩).2.1 "zz" 4 (by decide)⟩

/-- Claim C10: setting a quantity to zero is not deletion:
`update(product, 0)` leaves the normalized id present with quantity 0,
its key still counts among the mapping's ids, a matching catalog product
is still returned by `get_products()`, and it contributes 0 to
`get_total_price()` (erasing the key gives the same total). -/
theorem claim_C10 (c : Cart) (product : ProductArg)
    (catalog : List Product) :
    cartGet (Cart.update c product 0).1.cart
        (Cart.get_product_id product) = some 0
    ∧ cartContains (Cart.update c product 0).1.cart
        (Cart.get_product_id product) = true
    ∧ Cart.get_product_id product ∈
        (Cart.update c product 0).1.cart.map Prod.fst
    ∧ (∀ pr ∈ catalog, pyStr pr.id = Cart.get_product_id product →
        pr ∈ Cart.get_products catalog (Cart.update c product 0).1)
    ∧ Cart.get_total_price catalog
          ⟨cartErase (Cart.update c product 0).1.cart
              (Cart.get_product_id product),
            (Cart.update c product 0).1.session_modified,
            (Cart.update c product 0).1.user_authenticated,
            (Cart.update c product 0).1.profile_old_cart⟩ =
        Cart.get_total_price catalog (Cart.update c product 0).1 := by
  have h0 : cartGet (Cart.update c product 0).1.cart
      (Cart.get_product_id product) = some 0 := by
    rw [Cart.update_cart]
    exact cartGet_cartSet_self _ _ _
  have hc : cartContains (Cart.update c product 0).1.cart
      (Cart.get_product_id product) = true := by
    rw [cartContains_eq_isSome, h0]
    rfl
  refine ⟨h0, hc, mem_keys_of_cartContains _ _ hc, ?_,
    get_total_price_erase_zero catalog _ _ h0⟩
  intro pr hpr hid
  unfold Cart.get_products
  rw [List.mem_filter]
  refine ⟨hpr, ?_⟩
  show cartContains (Cart.update c product 0).1.cart (pyStr pr.id) = true
  rw [hid]
  exact hc

/-- Witness for C10 at a concrete input: after `update` to 0, the
matching catalog product is still returned by `get_products()`. -/
theorem claim_C10_witness :
    (⟨PyVal.str "a", 7, 0, false⟩ : Product) ∈
        ([⟨PyVal.str "a", 7, 0, false⟩] : List Product)
    ∧ pyStr (⟨PyVal.str "a", 7, 0, false⟩ : Product).id =
        Cart.get_product_id (ProductArg.plain (PyVal.str "a"))
    ∧ (⟨PyVal.str "a", 7, 0, false⟩ : Product) ∈
        Cart.get_products [⟨PyVal.str "a", 7, 0, false⟩]
          (Cart.update ⟨[], false, false, none⟩
            (ProductArg.plain (PyVal.str "a")) 0).1 :=
  ⟨by decide, by decide,
    (claim_C10 ⟨[], false, false, none⟩ (ProductArg.plain (PyVal.str "a"))
      [⟨PyVal.str "a", 7, 0, false⟩]).2.2.2.1
      ⟨PyVal.str "a", 7, 0, false⟩ (by decide) (by decide)⟩
